import Mathlib

/-!
Shallow embedding of the sp-blockchain settlement ledger (Rust) in Lean 4,
used to settle claims about its settlement pipeline (`src/simple_blockchain.rs`),
consensus engine (`src/network/consensus.rs`), settlement circuits
(`src/zkp/circuits.rs`) and contract VM (`src/zkp/smart_contracts/vm.rs`).

Machine integers are modelled as `Nat`/`Int` with explicit `% 2^w` at the
operations where the Rust release build wraps (`u32` arithmetic in
`validate_bce_record`, `u64` `wrapping_*` in the VM).  `HashMap`s are
modelled as association lists whose update / lookup semantics mirror the
Rust `entry().or_insert()` / `get` / `insert` / `remove` calls; iteration
order, which Rust leaves unspecified, is insertion order here, and every
concrete witness below uses maps where the two coincide (at most one key,
or order-insensitive statements).  `SystemTime`/`Utc::now()` values are
threaded as explicit `Nat` parameters.
-/

namespace SPB

/-- View of `Except` as a sum, used only to derive decidable equality. -/
def exceptToSum {ε α : Type} : Except ε α → ε ⊕ α
  | .error e => .inl e
  | .ok a => .inr a

instance {ε α : Type} [DecidableEq ε] [DecidableEq α] :
    DecidableEq (Except ε α) := fun a b =>
  decidable_of_iff (exceptToSum a = exceptToSum b)
    (by cases a <;> cases b <;> simp [exceptToSum])

/-- Association list lookup, mirroring `HashMap::get`: first entry wins. -/
def lookupA {κ α : Type} [DecidableEq κ] (l : List (κ × α)) (k : κ) : Option α :=
  match l with
  | [] => none
  | (k', v) :: rest => if k' = k then some v else lookupA rest k

/-- Association list insert-or-replace, mirroring `HashMap::insert`. -/
def insertA {κ α : Type} [DecidableEq κ] (l : List (κ × α)) (k : κ) (v : α) :
    List (κ × α) :=
  match l with
  | [] => [(k, v)]
  | (k', v') :: rest =>
      if k' = k then (k, v) :: rest else (k', v') :: insertA rest k v

/-- Association list removal, mirroring `HashMap::remove`. -/
def removeA {κ α : Type} [DecidableEq κ] (l : List (κ × α)) (k : κ) :
    List (κ × α) :=
  match l with
  | [] => []
  | (k', v') :: rest =>
      if k' = k then rest else (k', v') :: removeA rest k

/-- Blake2b hashes are 32-byte values (`Blake2bHash` in `src/hash.rs`). -/
abbrev HashBytes := List Nat

/-- The all-zero 32-byte hash, `Blake2bHash::zero()`. -/
def zeroHash : HashBytes := List.replicate 32 0

/-- Settlement status of a BCE record (`SettlementStatus` in
`src/simple_blockchain.rs`). -/
inductive SettlementStatus where
  | pending
  | inProgress
  | settled
  | disputed
deriving DecidableEq, Repr

/-- BCE record (`BceRecord` in `src/simple_blockchain.rs`).  The `u32`
counters and rates are `Nat`s; the arithmetic performed on them wraps where
the source's release-mode `u32` arithmetic wraps.  The opaque
`zkp_proof` byte string is a `List Nat` of bytes and the consortium
signature is reduced to its presence. -/
structure BceRecord where
  recordId : String
  imsi : String
  homeOperator : String
  visitedOperator : String
  callMinutes : Nat
  dataMb : Nat
  smsCount : Nat
  callRateCents : Nat
  dataRateCents : Nat
  smsRateCents : Nat
  wholesaleChargeCents : Nat
  timestamp : Nat
  roamingMinutes : Option Nat := none
  roamingDataMb : Option Nat := none
  roamingRateCents : Option Nat := none
  roamingDataRateCents : Option Nat := none
  networkPairHash : Option String := none
  zkpProof : Option (List Nat) := none
  proofVerified : Bool := false
  hasConsortiumSignature : Bool := false
  settlementStatus : SettlementStatus := .pending
  settledInBlock : Option String := none
  settlementId : Option String := none
  settledTimestamp : Option Nat := none
deriving DecidableEq, Repr

/-- Errors surfaced by the pipeline (`BlockchainError`); only the variants
the embedded operations can produce are carried. -/
inductive BlockchainError where
  | invalidRecord (msg : String)
  | noPendingRecords
deriving DecidableEq, Repr

/-- `BceRecord::mark_in_settlement`: `Pending → InProgress`, recording the
settlement id; any other starting status is an error. -/
def markInSettlement (r : BceRecord) (settlementId : String) :
    Except String BceRecord :=
  match r.settlementStatus with
  | .pending =>
      .ok { r with settlementStatus := .inProgress,
                   settlementId := some settlementId }
  | .inProgress => .error ("Record " ++ r.recordId ++ " is already being processed")
  | .settled => .error ("Record " ++ r.recordId ++ " is already settled")
  | .disputed => .error ("Record " ++ r.recordId ++ " is under dispute and cannot be settled")

/-- `BceRecord::mark_settled`: requires `InProgress`, then records the block
hash and timestamp; on any other status it errors without mutating. -/
def markSettled (r : BceRecord) (blockHash : String) (ts : Nat) :
    Except String BceRecord :=
  if r.settlementStatus ≠ SettlementStatus.inProgress then
    .error ("Record " ++ r.recordId ++ " must be InProgress to mark as settled")
  else
    .ok { r with settlementStatus := .settled,
                 settledInBlock := some blockHash,
                 settledTimestamp := some ts }

/-- Wrapping 32-bit multiply, the release-mode semantics of `u32 * u32`. -/
def mul32 (a b : Nat) : Nat := (a * b) % 2 ^ 32

/-- Wrapping 32-bit add, the release-mode semantics of `u32 + u32`. -/
def add32 (a b : Nat) : Nat := (a + b) % 2 ^ 32

/-- The charge computed by `SimpleBlockchain::validate_bce_record`
(`src/simple_blockchain.rs:952`): `call_minutes * call_rate_cents +
data_mb * data_rate_cents + sms_count * sms_rate_cents` in `u32`
arithmetic, each operation wrapping modulo `2^32`. -/
def calculatedCharge (r : BceRecord) : Nat :=
  add32 (add32 (mul32 r.callMinutes r.callRateCents)
               (mul32 r.dataMb r.dataRateCents))
        (mul32 r.smsCount r.smsRateCents)

/-- The exact (unbounded-integer) value of the same charge expression,
following the claim's words; used to compare the wrapped computation with
the mathematically intended one. -/
def calculatedChargeExact (r : BceRecord) : Nat :=
  r.callMinutes * r.callRateCents + r.dataMb * r.dataRateCents
    + r.smsCount * r.smsRateCents

/-- The variance computed by `validate_bce_record`: absolute difference
between the (wrapped) calculated charge and the declared wholesale charge. -/
def chargeVariance (r : BceRecord) : Nat :=
  if r.wholesaleChargeCents < calculatedCharge r then
    calculatedCharge r - r.wholesaleChargeCents
  else
    r.wholesaleChargeCents - calculatedCharge r

/-- `SimpleBlockchain::validate_bce_record`
(`src/simple_blockchain.rs:941-970`): rejects an empty record id, an empty
IMSI, and a charge variance above 50 cents. -/
def validateBceRecord (r : BceRecord) : Except BlockchainError Unit :=
  if r.recordId = "" then
    .error (.invalidRecord "Missing record ID")
  else if r.imsi = "" then
    .error (.invalidRecord "Missing IMSI")
  else if 50 < chargeVariance r then
    .error (.invalidRecord
      ("Charge mismatch: calculated " ++ toString (calculatedCharge r)
        ++ ", actual " ++ toString r.wholesaleChargeCents))
  else
    .ok ()

/-- Wrapping 64-bit add, the release-mode semantics of `u64 += u64`. -/
def add64 (a b : Nat) : Nat := (a + b) % 2 ^ 64

/-- Settlement summary of a block (`SettlementSummary` in
`src/simple_blockchain.rs`).  `operator_balances` is a `HashMap<String,i64>`;
here an association list.  The `i64` balances are modelled as unbounded `Int`
(the checked-arithmetic semantics; no balance wraps in any state the
pipeline's `u32` charges can reach with feasibly many records). -/
structure SettlementSummary where
  totalRecords : Nat
  totalAmountCents : Nat
  operatorBalances : List (String × Int)
deriving DecidableEq, Repr

/-- One `entry(key).or_insert(0); *balance += delta` step on the balance
map: add `delta` to the existing entry, or insert `delta` into a fresh
zero-initialised entry. -/
def updateBal (m : List (String × Int)) (k : String) (d : Int) :
    List (String × Int) :=
  match m with
  | [] => [(k, d)]
  | (k', v) :: rest =>
      if k' = k then (k', v + d) :: rest else (k', v) :: updateBal rest k d

/-- The per-record body of `calculate_settlement_summary`'s loop: debit the
home operator by the wholesale charge, credit the visited operator by the
same amount. -/
def applyRecordBalances (m : List (String × Int)) (r : BceRecord) :
    List (String × Int) :=
  updateBal (updateBal m r.homeOperator (-(r.wholesaleChargeCents : Int)))
    r.visitedOperator (r.wholesaleChargeCents : Int)

/-- `SimpleBlockchain::calculate_settlement_summary`
(`src/simple_blockchain.rs:917-938`).  The source fills the total and the
balance map in one pass over `records`; the two folds here traverse the
same list with the same per-record updates. -/
def calculateSettlementSummary (records : List BceRecord) : SettlementSummary :=
  { totalRecords := records.length
    totalAmountCents :=
      records.foldl (fun acc r => add64 acc r.wholesaleChargeCents) 0
    operatorBalances := records.foldl applyRecordBalances [] }

/-- Sum of the values of a balance map (`operator_balances.values().sum()`
in the claim's words). -/
def sumVals (m : List (String × Int)) : Int := (m.map Prod.snd).sum

/-- Balance of one operator in a balance map, zero when absent. -/
def balanceOf (m : List (String × Int)) (op : String) : Int :=
  (lookupA m op).getD 0

/-- Total amount credited to operator `op` by `records` (it is the visited
operator of the record). -/
def creditSum (records : List BceRecord) (op : String) : Int :=
  (records.map fun r =>
    if r.visitedOperator = op then (r.wholesaleChargeCents : Int) else 0).sum

/-- Total amount debited from operator `op` by `records` (it is the home
operator of the record). -/
def debitSum (records : List BceRecord) (op : String) : Int :=
  (records.map fun r =>
    if r.homeOperator = op then (r.wholesaleChargeCents : Int) else 0).sum

theorem sumVals_updateBal (m : List (String × Int)) (k : String) (d : Int) :
    sumVals (updateBal m k d) = sumVals m + d := by
  induction m with
  | nil => simp [updateBal, sumVals]
  | cons hd tl ih =>
      obtain ⟨k', v⟩ := hd
      by_cases h : k' = k <;> simp [updateBal, h, sumVals] at ih ⊢ <;> ring_nf
      rw [ih]; ring

theorem balanceOf_updateBal (m : List (String × Int)) (k : String) (d : Int)
    (op : String) :
    balanceOf (updateBal m k d) op
      = balanceOf m op + (if k = op then d else 0) := by
  induction m with
  | nil =>
      by_cases h : k = op <;> simp [updateBal, balanceOf, lookupA, h]
  | cons hd tl ih =>
      obtain ⟨k', v⟩ := hd
      by_cases h : k' = k
      · subst h
        by_cases h2 : k' = op <;> simp [updateBal, balanceOf, lookupA, h2]
      · by_cases h2 : k' = op
        · subst h2
          have h' : ¬k = k' := fun hk => h hk.symm
          simp [updateBal, h, balanceOf, lookupA, if_neg h']
        · simp [updateBal, h, balanceOf, lookupA, h2] at ih ⊢
          exact ih

theorem sumVals_applyRecordBalances (m : List (String × Int)) (r : BceRecord) :
    sumVals (applyRecordBalances m r) = sumVals m := by
  unfold applyRecordBalances
  rw [sumVals_updateBal, sumVals_updateBal]; ring

theorem balanceOf_applyRecordBalances (m : List (String × Int)) (r : BceRecord)
    (op : String) :
    balanceOf (applyRecordBalances m r) op
      = balanceOf m op
        + (if r.visitedOperator = op then (r.wholesaleChargeCents : Int) else 0)
        - (if r.homeOperator = op then (r.wholesaleChargeCents : Int) else 0) := by
  unfold applyRecordBalances
  rw [balanceOf_updateBal, balanceOf_updateBal]
  by_cases h1 : r.homeOperator = op <;> by_cases h2 : r.visitedOperator = op <;>
    · simp [h1, h2]
      try ring

theorem sumVals_foldl (records : List BceRecord) (m : List (String × Int)) :
    sumVals (records.foldl applyRecordBalances m) = sumVals m := by
  induction records generalizing m with
  | nil => rfl
  | cons r rs ih => rw [List.foldl_cons, ih, sumVals_applyRecordBalances]

theorem balanceOf_foldl (records : List BceRecord) (m : List (String × Int))
    (op : String) :
    balanceOf (records.foldl applyRecordBalances m) op
      = balanceOf m op + creditSum records op - debitSum records op := by
  induction records generalizing m with
  | nil => simp [creditSum, debitSum]
  | cons r rs ih =>
      rw [List.foldl_cons, ih, balanceOf_applyRecordBalances]
      simp [creditSum, debitSum]; ring

/-- Claim C6: `calculate_settlement_summary` debits each record's home
operator by `wholesale_charge_cents` and credits its visited operator by the
same amount — each operator's final balance is the sum of its credits minus
the sum of its debits — and the values of `operator_balances` sum to exactly
zero, for every list of records. -/
theorem calculateSettlementSummary_balances (records : List BceRecord) :
    sumVals (calculateSettlementSummary records).operatorBalances = 0 ∧
    ∀ op : String,
      balanceOf (calculateSettlementSummary records).operatorBalances op
        = creditSum records op - debitSum records op := by
  constructor
  · rw [calculateSettlementSummary, sumVals_foldl]; rfl
  · intro op
    rw [calculateSettlementSummary, balanceOf_foldl]
    simp [balanceOf, lookupA]

/-- S4 record of the specification: `call_minutes = 10`,
`call_rate_cents = 15`, `data_mb = 0`, `sms_count = 0`,
`wholesale_charge_cents = 200` (calculated charge 150). -/
def s4Record : BceRecord :=
  { recordId := "r4", imsi := "i4", homeOperator := "op-a",
    visitedOperator := "op-b", callMinutes := 10, dataMb := 0, smsCount := 0,
    callRateCents := 15, dataRateCents := 0, smsRateCents := 0,
    wholesaleChargeCents := 200, timestamp := 0 }

/-- Claim C7 (counterexample): the record of the claim's own example —
calculated charge 150, declared 200, absolute difference exactly 50 — is
ACCEPTED by `validate_bce_record` (variance 50 is within the `> 50`
rejection threshold), not rejected with a charge-mismatch error as the
claim's example asserts. -/
theorem validateBceRecord_accepts_s4 :
    validateBceRecord s4Record = .ok () ∧
    calculatedCharge s4Record = 150 ∧
    s4Record.wholesaleChargeCents = 200 := by decide

/-- Claim C7 (amended): for a record with non-empty id and IMSI,
`validate_bce_record` accepts exactly when the absolute difference between
the computed charge (`u32` arithmetic) and the declared wholesale charge is
at most 50, and rejects a difference of 51 or more with
`InvalidRecord("Charge mismatch: calculated {calculated}, actual {actual}")`;
a difference of exactly 50 — such as calculated 150 against actual 200 — is
accepted. -/
theorem validateBceRecord_tolerance (r : BceRecord)
    (h1 : ¬r.recordId = "") (h2 : ¬r.imsi = "") :
    (chargeVariance r ≤ 50 → validateBceRecord r = .ok ()) ∧
    (51 ≤ chargeVariance r →
      validateBceRecord r = .error (.invalidRecord
        ("Charge mismatch: calculated " ++ toString (calculatedCharge r)
          ++ ", actual " ++ toString r.wholesaleChargeCents))) := by
  constructor <;> intro h <;>
    simp only [validateBceRecord, if_neg h1, if_neg h2]
  · rw [if_neg (by omega)]
  · rw [if_pos (by omega)]

/-- Record with variance 51 (calculated 150, declared 201), used to witness
the rejection branch of the amended C7. -/
def c7RejectRecord : BceRecord :=
  { recordId := "r5", imsi := "i5", homeOperator := "op-a",
    visitedOperator := "op-b", callMinutes := 10, dataMb := 0, smsCount := 0,
    callRateCents := 15, dataRateCents := 0, smsRateCents := 0,
    wholesaleChargeCents := 201, timestamp := 0 }

/-- Witness for the amended C7 at concrete inputs: the variance-50 record
`s4Record` is accepted and the variance-51 record `c7RejectRecord` is
rejected with the charge-mismatch message. -/
theorem validateBceRecord_tolerance_witness :
    (¬s4Record.recordId = "" ∧ chargeVariance s4Record = 50 ∧
      validateBceRecord s4Record = .ok ()) ∧
    (¬c7RejectRecord.recordId = "" ∧ chargeVariance c7RejectRecord = 51 ∧
      validateBceRecord c7RejectRecord
        = .error (.invalidRecord "Charge mismatch: calculated 150, actual 201")) :=
  ⟨⟨by decide, by decide,
    (validateBceRecord_tolerance s4Record (by decide) (by decide)).1 (by decide)⟩,
   ⟨by decide, by decide, by
     exact (validateBceRecord_tolerance c7RejectRecord (by decide) (by decide)).2
       (by decide)⟩⟩

/-- Record whose exact calculated charge is `2^32` (= 65536 · 65536): every
field fits in `u32`, but the `u32` computation wraps to 0. -/
def c9Record : BceRecord :=
  { recordId := "r9", imsi := "i9", homeOperator := "op-a",
    visitedOperator := "op-b", callMinutes := 65536, dataMb := 0, smsCount := 0,
    callRateCents := 65536, dataRateCents := 0, smsRateCents := 0,
    wholesaleChargeCents := 0, timestamp := 0 }

/-- Claim C9: the charge equation of `validate_bce_record` is evaluated in
`u32` arithmetic; for `c9Record` the exact value `65536 · 65536 = 2^32`
exceeds `2^32 − 1`, the wrapped computation yields 0, and the record is
accepted although its true calculated-versus-declared difference
(`2^32 − 0`) far exceeds 50. -/
theorem validateBceRecord_u32_overflow :
    validateBceRecord c9Record = .ok () ∧
    calculatedCharge c9Record = 0 ∧
    calculatedChargeExact c9Record = 4294967296 ∧
    2 ^ 32 - 1 < calculatedChargeExact c9Record ∧
    50 < calculatedChargeExact c9Record - c9Record.wholesaleChargeCents := by
  decide

/-! ## Consensus engine (`src/network/consensus.rs`) -/

/-- A validator's vote (`Vote` in `src/network/consensus.rs`). -/
structure VoteR where
  validatorId : String
  blockHash : HashBytes
  approve : Bool
  signature : List Nat
  timestamp : Nat
deriving DecidableEq, Repr

/-- Per-block voting round (`ConsensusRound`): `votes` is a
`HashMap<String, Vote>` keyed by validator id. -/
structure ConsensusRound where
  blockHash : HashBytes
  votes : List (String × VoteR)
  startedAt : Nat
  finalized : Bool
  result : Option Bool
deriving DecidableEq, Repr

/-- Validator metadata (`ValidatorInfo`). -/
structure ValidatorInfo where
  nodeId : String
  stakeWeight : Nat
  publicKey : List Nat
  isActive : Bool
deriving DecidableEq, Repr

/-- Consensus configuration (`ConsensusConfig`).  The source stores
`approval_threshold` as the `f64` `0.67` and compares
`approvals as f64 / total as f64 >= threshold`; here the threshold is the
percentage 67 and the comparison is the exact
`67 * total ≤ 100 * approvals`.  The two agree on every total the five
fixed validators can produce (`total ≤ 5`; no rational `a/t` with `t ≤ 5`
lies between `67/100` and the `f64` nearest to `0.67`, and `a/t` rounds to
a value `≥ 0.67f64` exactly when `a/t ≥ 67/100`). -/
structure ConsensusConfig where
  minValidators : Nat
  approvalThresholdPct : Nat
  timeoutDuration : Nat
  maxConcurrentRounds : Nat
deriving DecidableEq, Repr

/-- The configuration fixed at startup (`ConsensusConfig::default` and the
values passed by `SimpleBlockchain::new`): `min_validators = 3`,
`approval_threshold = 0.67`, `timeout_duration = 30 s`,
`max_concurrent_rounds = 10`. -/
def defaultConfig : ConsensusConfig :=
  { minValidators := 3, approvalThresholdPct := 67, timeoutDuration := 30,
    maxConcurrentRounds := 10 }

/-- The five SP consortium validators initialised by
`SimpleConsensus::new`, all active with stake 100 and 32-byte zero
placeholder public keys. -/
def defaultValidators : List (String × ValidatorInfo) :=
  [("tmobile-de", ⟨"tmobile-de", 100, List.replicate 32 0, true⟩),
   ("vodafone-uk", ⟨"vodafone-uk", 100, List.replicate 32 0, true⟩),
   ("orange-fr", ⟨"orange-fr", 100, List.replicate 32 0, true⟩),
   ("telenor-no", ⟨"telenor-no", 100, List.replicate 32 0, true⟩),
   ("sfr-fr", ⟨"sfr-fr", 100, List.replicate 32 0, true⟩)]

/-- Consensus engine state (`SimpleConsensus`). -/
structure SimpleConsensus where
  validators : List (String × ValidatorInfo)
  activeRounds : List (HashBytes × ConsensusRound)
  config : ConsensusConfig
deriving DecidableEq, Repr

/-- Result of processing a vote (`ConsensusResult`). -/
inductive ConsensusResult where
  | inProgress (votesReceived votesNeeded : Nat)
  | finalized (approved : Bool)
  | alreadyFinalized (result : Option Bool)
deriving DecidableEq, Repr

/-- Consensus errors (`ConsensusError`). -/
inductive ConsensusError where
  | roundAlreadyExists
  | tooManyActiveRounds
  | unknownValidator (id : String)
  | inactiveValidator (id : String)
  | invalidSignature
  | noActiveRound
  | roundAlreadyFinalized
deriving DecidableEq, Repr

/-- `SimpleConsensus::new`: the five fixed validators, no active rounds. -/
def newConsensus (config : ConsensusConfig) : SimpleConsensus :=
  { validators := defaultValidators, activeRounds := [], config }

/-- `SimpleConsensus::start_consensus`; `now` is the `SystemTime::now()`
at which the round starts. -/
def startConsensus (c : SimpleConsensus) (blockHash : HashBytes) (now : Nat) :
    SimpleConsensus × Except ConsensusError Unit :=
  if (lookupA c.activeRounds blockHash).isSome then
    (c, .error .roundAlreadyExists)
  else if c.config.maxConcurrentRounds ≤ c.activeRounds.length then
    (c, .error .tooManyActiveRounds)
  else
    let round : ConsensusRound :=
      { blockHash := blockHash, votes := [], startedAt := now,
        finalized := false, result := none }
    ({ c with activeRounds := insertA c.activeRounds blockHash round }, .ok ())

/-- Count of `approve = true` votes in a round's vote map. -/
def countApprovals (votes : List (String × VoteR)) : Nat :=
  (votes.filter fun kv => kv.2.approve).length

/-- Count of `approve = false` votes in a round's vote map. -/
def countRejections (votes : List (String × VoteR)) : Nat :=
  (votes.filter fun kv => !kv.2.approve).length

/-- Number of active validators. -/
def activeCount (validators : List (String × ValidatorInfo)) : Nat :=
  (validators.filter fun kv => kv.2.isActive).length

/-- `SimpleConsensus::check_consensus` on one round, returning the updated
round together with the reported result. -/
def checkConsensus (validators : List (String × ValidatorInfo))
    (config : ConsensusConfig) (round : ConsensusRound) :
    ConsensusRound × ConsensusResult :=
  if round.finalized = true then
    (round, .alreadyFinalized round.result)
  else if round.votes.length < config.minValidators then
    (round, .inProgress round.votes.length config.minValidators)
  else if activeCount validators
        ≤ countApprovals round.votes + countRejections round.votes
      ∨ config.approvalThresholdPct
          * (countApprovals round.votes + countRejections round.votes)
        ≤ 100 * countApprovals round.votes then
    ({ round with
        finalized := true,
        result := some (decide (config.approvalThresholdPct
          * (countApprovals round.votes + countRejections round.votes)
          ≤ 100 * countApprovals round.votes)) },
     .finalized (decide (config.approvalThresholdPct
       * (countApprovals round.votes + countRejections round.votes)
       ≤ 100 * countApprovals round.votes)))
  else
    (round, .inProgress (countApprovals round.votes + countRejections round.votes)
      (activeCount validators))

/-- `SimpleConsensus::process_vote`: validator checks, the
already-finalized check, vote recording (at most one per validator via the
keyed insert), then `check_consensus`. -/
def processVote (c : SimpleConsensus) (v : VoteR) :
    SimpleConsensus × Except ConsensusError ConsensusResult :=
  match lookupA c.validators v.validatorId with
  | none => (c, .error (.unknownValidator v.validatorId))
  | some info =>
      if info.isActive = false then
        (c, .error (.inactiveValidator v.validatorId))
      else
        match lookupA c.activeRounds v.blockHash with
        | none => (c, .error .noActiveRound)
        | some round =>
            if round.finalized = true then
              (c, .error .roundAlreadyFinalized)
            else
              let round1 :=
                { round with votes := insertA round.votes v.validatorId v }
              let cc := checkConsensus c.validators c.config round1
              ({ c with activeRounds :=
                  insertA c.activeRounds v.blockHash cc.1 },
               .ok cc.2)

/-- A round is expired at `now` when `duration_since` succeeds
(`started_at ≤ now`), the elapsed time exceeds the timeout, and the round
is not finalized (`cleanup_expired_rounds`'s selection). -/
def roundExpired (config : ConsensusConfig) (now : Nat) (r : ConsensusRound) :
    Prop :=
  r.startedAt ≤ now ∧ config.timeoutDuration < now - r.startedAt ∧
    r.finalized = false

instance (config : ConsensusConfig) (now : Nat) (r : ConsensusRound) :
    Decidable (roundExpired config now r) := by
  unfold roundExpired; infer_instance

/-- `SimpleConsensus::cleanup_expired_rounds`: every expired round is
removed from the active map.  (The source marks the already-removed local
copy finalized-rejected before dropping it; that mutation has no observable
effect on the engine's state.) -/
def cleanupExpiredRounds (c : SimpleConsensus) (now : Nat) : SimpleConsensus :=
  { c with activeRounds :=
      c.activeRounds.filter fun kv => !decide (roundExpired c.config now kv.2) }

/-- Concrete block hash used by the consensus scenarios below. -/
def cxHash : HashBytes := List.replicate 32 7

/-- An approve vote for `cxHash` from the named validator (empty signature
and epoch timestamp 0, as the source's vote construction leaves them). -/
def mkApproveVote (id : String) : VoteR :=
  { validatorId := id, blockHash := cxHash, approve := true, signature := [],
    timestamp := 0 }

/-- Fresh engine with one round open for `cxHash`, started at time 0. -/
def c3State0 : SimpleConsensus :=
  (startConsensus (newConsensus defaultConfig) cxHash 0).1

/-- After one approve vote (tmobile-de). -/
def c3State1 : SimpleConsensus :=
  (processVote c3State0 (mkApproveVote "tmobile-de")).1

/-- After two approve votes (tmobile-de, vodafone-uk). -/
def c3State2 : SimpleConsensus :=
  (processVote c3State1 (mkApproveVote "vodafone-uk")).1

theorem lookupA_insertA_self {κ α : Type} [DecidableEq κ]
    (l : List (κ × α)) (k : κ) (v : α) :
    lookupA (insertA l k v) k = some v := by
  induction l with
  | nil => simp [insertA, lookupA]
  | cons hd tl ih =>
      obtain ⟨k', v'⟩ := hd
      by_cases h : k' = k <;> simp [insertA, h, lookupA, ih]

theorem countApprovals_add_countRejections (votes : List (String × VoteR)) :
    countApprovals votes + countRejections votes = votes.length := by
  induction votes with
  | nil => rfl
  | cons kv tl ih =>
      cases hb : kv.2.approve <;>
        · simp [countApprovals, countRejections, List.filter, hb] at ih ⊢
          omega

theorem lookupA_eq_none_of_not_mem {κ α : Type} [DecidableEq κ]
    (l : List (κ × α)) (k : κ) (h : k ∉ l.map Prod.fst) :
    lookupA l k = none := by
  induction l with
  | nil => rfl
  | cons hd tl ih =>
      obtain ⟨k', v'⟩ := hd
      simp only [List.map_cons, List.mem_cons] at h
      push_neg at h
      rw [lookupA.eq_def]
      simp only
      rw [if_neg fun he => h.1 he.symm]
      exact ih h.2

theorem lookupA_filter_none {κ α : Type} [DecidableEq κ]
    (l : List (κ × α)) (k : κ) (r : α) (p : κ × α → Bool)
    (hnd : (l.map Prod.fst).Nodup) (hl : lookupA l k = some r)
    (hp : p (k, r) = false) :
    lookupA (l.filter p) k = none := by
  induction l with
  | nil => simp [lookupA] at hl
  | cons hd tl ih =>
      obtain ⟨k', v'⟩ := hd
      simp only [List.map_cons, List.nodup_cons] at hnd
      by_cases h : k' = k
      · subst h
        rw [lookupA, if_pos rfl] at hl
        obtain rfl : v' = r := by injection hl
        rw [List.filter_cons, if_neg (by simp [hp])]
        exact lookupA_eq_none_of_not_mem _ _ fun hm =>
          hnd.1 (((List.filter_sublist tl).map Prod.fst).mem hm)
      · rw [lookupA, if_neg h] at hl
        rw [List.filter_cons]
        by_cases hpk : p (k', v') = true
        · rw [if_pos (by simp [hpk]), lookupA, if_neg h]
          exact ih hnd.2 hl
        · rw [if_neg (by simpa using hpk)]
          exact ih hnd.2 hl

theorem checkConsensus_finalized_true
    (validators : List (String × ValidatorInfo)) (round : ConsensusRound)
    (hres : (checkConsensus validators defaultConfig round).2
      = .finalized true) :
    (checkConsensus validators defaultConfig round).1.votes = round.votes ∧
    (4 ≤ countApprovals round.votes ∨
      (countApprovals round.votes = 3 ∧
        (round.votes.length = 3 ∨ round.votes.length = 4))) := by
  simp only [checkConsensus] at hres ⊢
  by_cases h1 : round.finalized = true
  · rw [if_pos h1] at hres; simp at hres
  · rw [if_neg h1] at hres ⊢
    by_cases h2 : round.votes.length < defaultConfig.minValidators
    · rw [if_pos h2] at hres; simp at hres
    · rw [if_neg h2] at hres ⊢
      by_cases h3 : activeCount validators
            ≤ countApprovals round.votes + countRejections round.votes
          ∨ defaultConfig.approvalThresholdPct
              * (countApprovals round.votes + countRejections round.votes)
            ≤ 100 * countApprovals round.votes
      · rw [if_pos h3] at hres ⊢
        refine ⟨rfl, ?_⟩
        have happ : defaultConfig.approvalThresholdPct
            * (countApprovals round.votes + countRejections round.votes)
            ≤ 100 * countApprovals round.votes := by
          have h := hres
          dsimp only at h
          exact of_decide_eq_true (by injection h)
        have hlen := countApprovals_add_countRejections round.votes
        simp only [defaultConfig] at happ h2
        omega
      · rw [if_neg h3] at hres; simp at hres

/-- Claim C3 (counterexample): with all five validators active and the
default 0.67 threshold, the third of three straight approvals already
returns `Finalized{approved = true}` — three approve votes, no rejection,
only three of the five validators having voted — so finalization does not
require four approvals or a complete vote. -/
theorem processVote_three_approvals_finalize :
    (processVote c3State2 (mkApproveVote "orange-fr")).2
      = .ok (.finalized true) ∧
    (lookupA (processVote c3State2 (mkApproveVote "orange-fr")).1.activeRounds
        cxHash).map (fun r => (countApprovals r.votes, r.votes.length))
      = some (3, 3) ∧
    activeCount c3State2.validators = 5 := by decide

/-- Claim C3 (amended): in a round under the default configuration
(threshold 0.67, `min_validators = 3`) over the five genesis validators,
`process_vote` returns `Finalized{approved = true}` only if the recorded
votes satisfy `approvals/total ≥ 0.67` with at least three votes cast:
over five active validators that means at least four approve votes, or
exactly three approve votes when only three or four validators have voted. -/
theorem processVote_finalized_true_structure (c : SimpleConsensus) (v : VoteR)
    (hcfg : c.config = defaultConfig)
    (_hval : c.validators = defaultValidators)
    (hres : (processVote c v).2 = .ok (.finalized true)) :
    ∃ r', lookupA (processVote c v).1.activeRounds v.blockHash = some r' ∧
      (4 ≤ countApprovals r'.votes ∨
        (countApprovals r'.votes = 3 ∧
          (r'.votes.length = 3 ∨ r'.votes.length = 4))) := by
  unfold processVote at hres ⊢
  cases hv : lookupA c.validators v.validatorId with
  | none => rw [hv] at hres; simp at hres
  | some info =>
      rw [hv] at hres
      dsimp only at hres ⊢
      by_cases hact : info.isActive = false
      · rw [if_pos hact] at hres; simp at hres
      · rw [if_neg hact] at hres ⊢
        cases hrd : lookupA c.activeRounds v.blockHash with
        | none => rw [hrd] at hres; simp at hres
        | some round =>
            rw [hrd] at hres
            dsimp only at hres ⊢
            by_cases hfin : round.finalized = true
            · rw [if_pos hfin] at hres; simp at hres
            · rw [if_neg hfin] at hres ⊢
              dsimp only at hres ⊢
              have hres2 : (checkConsensus c.validators c.config
                  { round with votes := insertA round.votes v.validatorId v }).2
                    = .finalized true := by
                injection hres
              rw [hcfg] at hres2
              obtain ⟨hvotes, hstruct⟩ :=
                checkConsensus_finalized_true c.validators _ hres2
              refine ⟨(checkConsensus c.validators c.config
                  { round with
                    votes := insertA round.votes v.validatorId v }).1,
                lookupA_insertA_self _ _ _, ?_⟩
              rw [hcfg, hvotes]
              exact hstruct

/-- Witness for the amended C3 at a concrete input: the third straight
approval finalizes, and the stored round indeed has exactly three approvals
from three voters. -/
theorem processVote_finalized_true_structure_witness :
    c3State2.config = defaultConfig ∧
    c3State2.validators = defaultValidators ∧
    (processVote c3State2 (mkApproveVote "orange-fr")).2
      = .ok (.finalized true) ∧
    (∃ r', lookupA (processVote c3State2
          (mkApproveVote "orange-fr")).1.activeRounds
        (mkApproveVote "orange-fr").blockHash = some r' ∧
      (4 ≤ countApprovals r'.votes ∨
        (countApprovals r'.votes = 3 ∧
          (r'.votes.length = 3 ∨ r'.votes.length = 4)))) :=
  ⟨by decide, by decide, by decide,
   processVote_finalized_true_structure c3State2 (mkApproveVote "orange-fr")
     (by decide) (by decide) (by decide)⟩

/-- Claim C4 (counterexample): a round opened at time 0 and still
unfinalized is removed from the active map by `cleanup_expired_rounds` at
time 31 (timeout 30 s); a subsequent vote on the same block hash from an
active validator then returns `Err(NoActiveRound)`, not
`Ok(AlreadyFinalized(Some(false)))` as the claim asserts. -/
theorem cleanup_then_vote_noActiveRound :
    (processVote (cleanupExpiredRounds c3State0 31)
        (mkApproveVote "tmobile-de")).2 = .error .noActiveRound ∧
    (processVote (cleanupExpiredRounds c3State0 31)
        (mkApproveVote "tmobile-de")).2
      ≠ .ok (.alreadyFinalized (some false)) ∧
    lookupA (cleanupExpiredRounds c3State0 31).activeRounds cxHash = none := by
  decide

/-- Claim C4 (amended): when a consensus round started at `t0` is not
finalized and `cleanup_expired_rounds` runs at a time past
`t0 + timeout_duration`, the round is dropped from the active-round map
entirely (the source marks its already-removed copy finalized-rejected and
then discards it), so a subsequent `process_vote` for the same `block_hash`
from a known active validator returns `Err(NoActiveRound)` and leaves the
state unchanged. -/
theorem cleanupExpiredRounds_removes_round (c : SimpleConsensus) (v : VoteR)
    (now : Nat) (r : ConsensusRound) (info : ValidatorInfo)
    (hnd : (c.activeRounds.map Prod.fst).Nodup)
    (hr : lookupA c.activeRounds v.blockHash = some r)
    (hexp : roundExpired c.config now r)
    (hinfo : lookupA c.validators v.validatorId = some info)
    (hact : info.isActive = true) :
    lookupA (cleanupExpiredRounds c now).activeRounds v.blockHash = none ∧
    processVote (cleanupExpiredRounds c now) v
      = (cleanupExpiredRounds c now, .error .noActiveRound) := by
  have hgone : lookupA (cleanupExpiredRounds c now).activeRounds v.blockHash
      = none := by
    exact lookupA_filter_none c.activeRounds v.blockHash r _ hnd hr
      (by simp [hexp])
  refine ⟨hgone, ?_⟩
  have hv : lookupA (cleanupExpiredRounds c now).validators v.validatorId
      = some info := hinfo
  unfold processVote
  rw [hv]
  dsimp only
  rw [if_neg (by simp [hact]), hgone]

/-- Witness for the amended C4 at a concrete input: the single open round
for `cxHash`, started at 0, expires by time 31 and a tmobile-de vote then
fails with `NoActiveRound`. -/
theorem cleanupExpiredRounds_removes_round_witness :
    (c3State0.activeRounds.map Prod.fst).Nodup ∧
    roundExpired c3State0.config 31
      { blockHash := cxHash, votes := [], startedAt := 0, finalized := false,
        result := none } ∧
    lookupA (cleanupExpiredRounds c3State0 31).activeRounds
        (mkApproveVote "tmobile-de").blockHash = none ∧
    processVote (cleanupExpiredRounds c3State0 31) (mkApproveVote "tmobile-de")
      = (cleanupExpiredRounds c3State0 31, .error .noActiveRound) := by
  refine ⟨by decide, by decide, ?_, ?_⟩
  · exact (cleanupExpiredRounds_removes_round c3State0
      (mkApproveVote "tmobile-de") 31
      { blockHash := cxHash, votes := [], startedAt := 0, finalized := false,
        result := none }
      ⟨"tmobile-de", 100, List.replicate 32 0, true⟩
      (by decide) (by decide) (by decide) (by decide) (by decide)).1
  · exact (cleanupExpiredRounds_removes_round c3State0
      (mkApproveVote "tmobile-de") 31
      { blockHash := cxHash, votes := [], startedAt := 0, finalized := false,
        result := none }
      ⟨"tmobile-de", 100, List.replicate 32 0, true⟩
      (by decide) (by decide) (by decide) (by decide) (by decide)).2

/-! ## Contract VM (`src/zkp/smart_contracts/vm.rs`) -/

/-- VM errors (`VmError`). -/
inductive VmError where
  | stackUnderflow
  | invalidInstruction (pos : Nat)
  | divisionByZero
  | storageError (msg : String)
  | zkpVerificationFailed
  | signatureVerificationFailed
  | executionHalted
deriving DecidableEq, Repr

/-- VM instruction set (`Instruction`). -/
inductive Instruction where
  | push (value : Nat)
  | pop
  | dup
  | swap
  | add
  | sub
  | mul
  | div
  | mod
  | eq
  | lt
  | gt
  | jump (addr : Nat)
  | jumpIf (addr : Nat)
  | halt
  | load (key : HashBytes)
  | store (key : HashBytes)
  | verifyProof
  | checkSignature
  | calculateSettlement
  | getTimestamp
  | log (msg : String)
  | validateConsortiumMember (member : String)
  | checkMultiPartySignatures (requiredCount : Nat)
  | calculateMultilateralNetting
deriving DecidableEq, Repr

/-- Outcome of a call into the crypto verifier
(`Result<bool, _>`): success with a boolean, or an error. -/
inductive VerifyOutcome where
  | ok (b : Bool)
  | err
deriving DecidableEq, Repr

/-- Wrapping 64-bit multiply (`u64::wrapping_mul`). -/
def mul64 (a b : Nat) : Nat := (a * b) % 2 ^ 64

/-- Wrapping 64-bit subtract (`u64::wrapping_sub`) for operands below
`2^64`. -/
def sub64 (a b : Nat) : Nat := (a + 2 ^ 64 - b) % 2 ^ 64

/-- VM state (`SmartContractVM`).  The stack is a list with its head as the
Rust `Vec`'s top (last element).  The crypto verifier is abstracted by the
two oracle functions, which receive the same storage words the source
feeds into `verify_bce_privacy_proof` / `verify_consortium_signature`, and
`Utc::now()` is the `now` field. -/
structure SmartContractVM where
  stack : List Nat
  pc : Nat
  storage : List (HashBytes × Nat)
  logs : List String
  bytecode : List Instruction
  gasLimit : Option Nat
  gasUsed : Nat
  consortiumMembers : List String
  result : Option Nat
  halted : Bool
  proofOracle : Nat → Nat → VerifyOutcome
  sigOracle : Nat → Nat → Nat → VerifyOutcome
  now : Nat

/-- `SmartContractVM::new`: empty stack and storage, `pc = 0`, gas limit
`Some(1_000_000)`, the five consortium members. -/
def SmartContractVM.new (bytecode : List Instruction)
    (proofOracle : Nat → Nat → VerifyOutcome)
    (sigOracle : Nat → Nat → Nat → VerifyOutcome) (now : Nat) :
    SmartContractVM :=
  { stack := [], pc := 0, storage := [], logs := [], bytecode,
    gasLimit := some 1000000, gasUsed := 0,
    consortiumMembers := ["T-Mobile-DE", "Vodafone-UK", "Orange-FR",
      "Telefónica-ES", "SFR-FR"],
    result := none, halted := false, proofOracle, sigOracle, now }

/-- The storage key `[w as u8; 32]` built by the crypto opcodes from a
stack word. -/
def keyOfWord (w : Nat) : HashBytes := List.replicate 32 (w % 256)

/-- `SmartContractVM::execute_instruction` for one fetched instruction.
`Jump`, a taken `JumpIf`, `Halt` and the demo-mode early returns of
`VerifyProof`/`CheckSignature` skip the trailing `pc += 1` exactly as the
source's early `return Ok(())` paths do. -/
def execInstr (vm : SmartContractVM) (i : Instruction) :
    Except VmError SmartContractVM :=
  match i with
  | .push value => .ok { vm with stack := value :: vm.stack, pc := vm.pc + 1 }
  | .pop =>
      match vm.stack with
      | [] => .error .stackUnderflow
      | _ :: rest => .ok { vm with stack := rest, pc := vm.pc + 1 }
  | .dup =>
      match vm.stack with
      | [] => .error .stackUnderflow
      | v :: rest => .ok { vm with stack := v :: v :: rest, pc := vm.pc + 1 }
  | .swap =>
      match vm.stack with
      | a :: b :: rest =>
          .ok { vm with stack := b :: a :: rest, pc := vm.pc + 1 }
      | _ => .error .stackUnderflow
  | .add =>
      match vm.stack with
      | b :: a :: rest =>
          .ok { vm with stack := add64 a b :: rest, pc := vm.pc + 1 }
      | _ => .error .stackUnderflow
  | .sub =>
      match vm.stack with
      | b :: a :: rest =>
          .ok { vm with stack := sub64 a b :: rest, pc := vm.pc + 1 }
      | _ => .error .stackUnderflow
  | .mul =>
      match vm.stack with
      | b :: a :: rest =>
          .ok { vm with stack := mul64 a b :: rest, pc := vm.pc + 1 }
      | _ => .error .stackUnderflow
  | .div =>
      match vm.stack with
      | b :: rest =>
          if b = 0 then .error .divisionByZero
          else match rest with
            | a :: rest' =>
                .ok { vm with stack := a / b :: rest', pc := vm.pc + 1 }
            | [] => .error .stackUnderflow
      | [] => .error .stackUnderflow
  | .mod =>
      match vm.stack with
      | b :: rest =>
          if b = 0 then .error .divisionByZero
          else match rest with
            | a :: rest' =>
                .ok { vm with stack := a % b :: rest', pc := vm.pc + 1 }
            | [] => .error .stackUnderflow
      | [] => .error .stackUnderflow
  | .eq =>
      match vm.stack with
      | b :: a :: rest =>
          .ok { vm with
            stack := (if a = b then 1 else 0) :: rest,
            pc := vm.pc + 1 }
      | _ => .error .stackUnderflow
  | .lt =>
      match vm.stack with
      | b :: a :: rest =>
          .ok { vm with
            stack := (if a < b then 1 else 0) :: rest,
            pc := vm.pc + 1 }
      | _ => .error .stackUnderflow
  | .gt =>
      match vm.stack with
      | b :: a :: rest =>
          .ok { vm with
            stack := (if b < a then 1 else 0) :: rest,
            pc := vm.pc + 1 }
      | _ => .error .stackUnderflow
  | .jump addr =>
      if vm.bytecode.length ≤ addr then .error (.invalidInstruction addr)
      else .ok { vm with pc := addr }
  | .jumpIf addr =>
      match vm.stack with
      | [] => .error .stackUnderflow
      | cond :: rest =>
          if cond ≠ 0 then
            if vm.bytecode.length ≤ addr then .error (.invalidInstruction addr)
            else .ok { vm with stack := rest, pc := addr }
          else .ok { vm with stack := rest, pc := vm.pc + 1 }
  | .halt =>
      .ok { vm with result := vm.stack.head?, halted := true }
  | .load key =>
      .ok { vm with
        stack := (lookupA vm.storage key).getD 0 :: vm.stack,
        pc := vm.pc + 1 }
  | .store key =>
      match vm.stack with
      | [] => .error .stackUnderflow
      | v :: rest =>
          .ok { vm with
            stack := rest, storage := insertA vm.storage key v,
            pc := vm.pc + 1 }
  | .verifyProof =>
      match vm.stack with
      | proofHash :: inputsHash :: rest =>
          let proofData := (lookupA vm.storage (keyOfWord proofHash)).getD 0
          let inputsData := (lookupA vm.storage (keyOfWord inputsHash)).getD 0
          if proofData = 0 ∨ inputsData = 0 then
            .ok { vm with stack := 1 :: rest }
          else
            match vm.proofOracle proofData inputsData with
            | .ok true => .ok { vm with stack := 1 :: rest, pc := vm.pc + 1 }
            | .ok false => .ok { vm with stack := 0 :: rest, pc := vm.pc + 1 }
            | .err => .error .zkpVerificationFailed
      | _ => .error .stackUnderflow
  | .checkSignature =>
      match vm.stack with
      | signatureHash :: pubkeyHash :: messageHash :: rest =>
          let signatureData :=
            (lookupA vm.storage (keyOfWord signatureHash)).getD 0
          let pubkeyData := (lookupA vm.storage (keyOfWord pubkeyHash)).getD 0
          let messageData :=
            (lookupA vm.storage (keyOfWord messageHash)).getD 0
          if signatureData = 0 ∨ pubkeyData = 0 ∨ messageData = 0 then
            .ok { vm with stack := 1 :: rest }
          else
            match vm.sigOracle signatureData pubkeyData messageData with
            | .ok true => .ok { vm with stack := 1 :: rest, pc := vm.pc + 1 }
            | .ok false => .ok { vm with stack := 0 :: rest, pc := vm.pc + 1 }
            | .err => .error .signatureVerificationFailed
      | _ => .error .stackUnderflow
  | .calculateSettlement =>
      match vm.stack with
      | exchangeRate :: amount :: rest =>
          .ok { vm with
            stack := mul64 amount exchangeRate / 10000 :: rest,
            pc := vm.pc + 1 }
      | _ => .error .stackUnderflow
  | .getTimestamp =>
      .ok { vm with stack := vm.now :: vm.stack, pc := vm.pc + 1 }
  | .log msg =>
      .ok { vm with logs := vm.logs ++ [msg], pc := vm.pc + 1 }
  | .validateConsortiumMember member =>
      .ok { vm with
        stack := (if vm.consortiumMembers.contains member then 1 else 0)
          :: vm.stack,
        pc := vm.pc + 1 }
  | .checkMultiPartySignatures requiredCount =>
      let popped := vm.stack.take requiredCount
      let validCount := (popped.filter fun v => v = 1).length
      .ok { vm with
        stack := (if requiredCount ≤ validCount then 1 else 0)
          :: vm.stack.drop requiredCount,
        pc := vm.pc + 1 }
  | .calculateMultilateralNetting =>
      match vm.stack with
      | [] => .error .stackUnderflow
      | totalBilateral :: rest =>
          .ok { vm with
            stack := mul64 totalBilateral (100 - 75) / 100 :: rest,
            pc := vm.pc + 1 }

/-- One iteration body of `execute`'s loop: fetch and run the current
instruction. -/
def step (vm : SmartContractVM) : Except VmError SmartContractVM :=
  match vm.bytecode.get? vm.pc with
  | none => .error (.invalidInstruction vm.pc)
  | some i => execInstr vm i

/-- Whether the gas check at the top of `execute`'s loop fires. -/
def gasExceeded (vm : SmartContractVM) : Prop :=
  match vm.gasLimit with
  | some l => l ≤ vm.gasUsed
  | none => False

instance (vm : SmartContractVM) : Decidable (gasExceeded vm) := by
  unfold gasExceeded; exact match vm.gasLimit with
  | some _ => Nat.decLe _ _
  | none => isFalse id

/-- The `while !halted && pc < len` loop of `SmartContractVM::execute`,
with `gas_used += 1` after each instruction.  `fuel` only bounds the
recursion; `executeVM` passes one more than the remaining gas budget, so
the fuel-exhaustion branch is unreachable (each iteration raises
`gas_used` by one and the gas check fires first).  On an instruction
error the loop stops and reports it, as `execute_instruction()?` does. -/
def runLoop (fuel : Nat) (vm : SmartContractVM) :
    SmartContractVM × Option VmError :=
  if vm.halted = true ∨ vm.bytecode.length ≤ vm.pc then (vm, none)
  else if gasExceeded vm then
    (vm, some (.storageError "Gas limit exceeded"))
  else
    match fuel with
    | 0 => (vm, some (.storageError "Gas limit exceeded"))
    | fuel' + 1 =>
        match step vm with
        | .error e => (vm, some e)
        | .ok vm' => runLoop fuel' { vm' with gasUsed := vm'.gasUsed + 1 }

/-- A halted VM leaves the loop immediately, whatever fuel remains. -/
theorem runLoop_halted (fuel : Nat) (vm : SmartContractVM)
    (h : vm.halted = true) : runLoop fuel vm = (vm, none) := by
  rw [runLoop.eq_def, if_pos (Or.inl h)]

/-- `SmartContractVM::execute`: run the loop; if it stopped by halting,
return `result.unwrap_or(0)`; if it left the bytecode without halting,
return `ExecutionHalted`; errors propagate.  The final VM state is paired
with the result, mirroring the method's `&mut self`. -/
def executeVM (vm : SmartContractVM) :
    SmartContractVM × Except VmError Nat :=
  match runLoop (vm.gasLimit.getD 0 + 1 - vm.gasUsed) vm with
  | (vm', some e) => (vm', .error e)
  | (vm', none) =>
      if vm'.halted = true then (vm', .ok (vm'.result.getD 0))
      else (vm', .error .executionHalted)

/-- Claim C10: when the VM executes `Halt`, the program result is the value
at the top of the stack at that moment — read with `stack.last()` and not
popped, so the final stack equals the stack at the halt — and when the
stack is empty `execute()` returns `Ok(0)` (`result.unwrap_or(0)`), not an
error.  `vm.stack.head?.getD 0` is the top-of-stack-or-zero. -/
theorem executeVM_halt (vm : SmartContractVM) (l : Nat)
    (hh : vm.halted = false)
    (hpc : vm.bytecode.get? vm.pc = some .halt)
    (hgl : vm.gasLimit = some l)
    (hgas : vm.gasUsed < l) :
    (executeVM vm).1.stack = vm.stack ∧
    (executeVM vm).1.result = vm.stack.head? ∧
    (executeVM vm).2 = .ok (vm.stack.head?.getD 0) := by
  have hpclt : vm.pc < vm.bytecode.length := by
    by_contra hle
    push_neg at hle
    rw [List.get?_eq_none.mpr hle] at hpc
    exact Option.noConfusion hpc
  have hfuel : vm.gasLimit.getD 0 + 1 - vm.gasUsed = (l - vm.gasUsed) + 1 := by
    rw [hgl]
    simp only [Option.getD_some]
    omega
  have hstep : step vm = .ok
      { vm with result := vm.stack.head?, halted := true } := by
    unfold step
    rw [hpc]
    rfl
  have hrun : runLoop (vm.gasLimit.getD 0 + 1 - vm.gasUsed) vm
      = ({ vm with
            result := vm.stack.head?,
            halted := true,
            gasUsed := vm.gasUsed + 1 }, none) := by
    rw [hfuel, runLoop.eq_def]
    rw [if_neg (by simp [hh]; omega)]
    rw [if_neg (by simp [gasExceeded, hgl]; omega)]
    rw [hstep]
    exact runLoop_halted _ _ rfl
  unfold executeVM
  rw [hrun]
  simp

/-- Demo proof oracle reporting success, for the C10 witness VMs. -/
def demoProofOracle : Nat → Nat → VerifyOutcome := fun _ _ => .ok true

/-- Demo signature oracle reporting success, for the C10 witness VMs. -/
def demoSigOracle : Nat → Nat → Nat → VerifyOutcome := fun _ _ _ => .ok true

/-- Fresh VM whose whole program is `Halt`, with an empty stack. -/
def c10VmEmpty : SmartContractVM :=
  SmartContractVM.new [.halt] demoProofOracle demoSigOracle 0

/-- The same VM with stack `[7, 5]` (7 on top). -/
def c10VmStack : SmartContractVM := { c10VmEmpty with stack := [7, 5] }

/-- Witness for C10 at concrete inputs: executing `Halt` on an empty stack
returns `Ok(0)`; on stack `[7, 5]` it returns `Ok(7)` and leaves the stack
unchanged. -/
theorem executeVM_halt_witness :
    (c10VmEmpty.halted = false ∧ c10VmEmpty.gasUsed < 1000000 ∧
      (executeVM c10VmEmpty).2 = .ok 0 ∧
      (executeVM c10VmEmpty).1.stack = []) ∧
    ((executeVM c10VmStack).2 = .ok 7 ∧
      (executeVM c10VmStack).1.stack = [7, 5]) := by
  have h1 := executeVM_halt c10VmEmpty 1000000 (by decide) (by decide)
    (by decide) (by decide)
  have h2 := executeVM_halt c10VmStack 1000000 (by decide) (by decide)
    (by decide) (by decide)
  exact ⟨⟨by decide, by decide, h1.2.2, h1.1⟩, ⟨h2.2.2, h2.1⟩⟩

/-! ## Settlement calculation circuit (`src/zkp/circuits.rs`) -/

/-- The BN254 scalar field modulus; `ark_bn254::Fr` is the prime field the
circuits are instantiated at. -/
def bn254Prime : Nat :=
  21888242871839275222246405745257275088548364400416034343698204186575808495617

/-- The circuit field. -/
abbrev Fp := ZMod bn254Prime

/-- The offset constant `F::from(10_000_000u64)` used to encode possibly
negative net positions. -/
def offsetF : Fp := 10000000

/-- `enforce_range_check` (`src/zkp/circuits.rs:15-34`) computes
`diff = max − value` and `diff²` but only enforces the tautology
`diff² = diff²` (the boolean gadget it builds is dropped), so as a
constraint on the allocated values it is vacuous. -/
def enforceRangeCheck (_value : Fp) (_maxBound : Nat) : Prop := True

/-- Witness and public inputs of `SettlementCalculationCircuit`: the 20
directed bilateral amounts, the five offset-encoded net positions, and the
five public inputs, all field elements. -/
structure SettlementWitness where
  tmobileToVodafone : Fp
  tmobileToOrange : Fp
  tmobileToTelenor : Fp
  tmobileToSfr : Fp
  vodafoneToTmobile : Fp
  vodafoneToOrange : Fp
  vodafoneToTelenor : Fp
  vodafoneToSfr : Fp
  orangeToTmobile : Fp
  orangeToVodafone : Fp
  orangeToTelenor : Fp
  orangeToSfr : Fp
  telenorToTmobile : Fp
  telenorToVodafone : Fp
  telenorToOrange : Fp
  telenorToSfr : Fp
  sfrToTmobile : Fp
  sfrToVodafone : Fp
  sfrToOrange : Fp
  sfrToTelenor : Fp
  tmobilePosition : Fp
  vodafonePosition : Fp
  orangePosition : Fp
  telenorPosition : Fp
  sfrPosition : Fp
  netSettlementCount : Fp
  totalNetAmount : Fp
  periodHash : Fp
  savingsPercentage : Fp
  consortiumHash : Fp
deriving DecidableEq

/-- Total outgoing bilateral amount of T-Mobile. -/
def tmoOutgoing (w : SettlementWitness) : Fp :=
  w.tmobileToVodafone + w.tmobileToOrange + w.tmobileToTelenor + w.tmobileToSfr

/-- Total incoming bilateral amount of T-Mobile. -/
def tmoIncoming (w : SettlementWitness) : Fp :=
  w.vodafoneToTmobile + w.orangeToTmobile + w.telenorToTmobile + w.sfrToTmobile

/-- Total outgoing bilateral amount of Vodafone. -/
def vodOutgoing (w : SettlementWitness) : Fp :=
  w.vodafoneToTmobile + w.vodafoneToOrange + w.vodafoneToTelenor + w.vodafoneToSfr

/-- Total incoming bilateral amount of Vodafone. -/
def vodIncoming (w : SettlementWitness) : Fp :=
  w.tmobileToVodafone + w.orangeToVodafone + w.telenorToVodafone + w.sfrToVodafone

/-- Total outgoing bilateral amount of Orange. -/
def orgOutgoing (w : SettlementWitness) : Fp :=
  w.orangeToTmobile + w.orangeToVodafone + w.orangeToTelenor + w.orangeToSfr

/-- Total incoming bilateral amount of Orange. -/
def orgIncoming (w : SettlementWitness) : Fp :=
  w.tmobileToOrange + w.vodafoneToOrange + w.telenorToOrange + w.sfrToOrange

/-- Total outgoing bilateral amount of Telenor (labelled Telefónica in the
source comments). -/
def telOutgoing (w : SettlementWitness) : Fp :=
  w.telenorToTmobile + w.telenorToVodafone + w.telenorToOrange + w.telenorToSfr

/-- Total incoming bilateral amount of Telenor. -/
def telIncoming (w : SettlementWitness) : Fp :=
  w.tmobileToTelenor + w.vodafoneToTelenor + w.orangeToTelenor + w.sfrToTelenor

/-- Total outgoing bilateral amount of SFR. -/
def sfrOutgoing (w : SettlementWitness) : Fp :=
  w.sfrToTmobile + w.sfrToVodafone + w.sfrToOrange + w.sfrToTelenor

/-- Total incoming bilateral amount of SFR. -/
def sfrIncoming (w : SettlementWitness) : Fp :=
  w.tmobileToSfr + w.vodafoneToSfr + w.orangeToSfr + w.telenorToSfr

/-- Sum of the five offset-encoded net positions. -/
def sumPositions (w : SettlementWitness) : Fp :=
  w.tmobilePosition + w.vodafonePosition + w.orangePosition
    + w.telenorPosition + w.sfrPosition

/-- The constraint system generated by
`SettlementCalculationCircuit::generate_constraints`
(`src/zkp/circuits.rs:386-561`): the five per-operator net-position
equations, the conservation equation against `5 × offset = 50_000_000`,
the (vacuous) range checks, and the consortium hash pin `54321`.  A witness
assignment satisfies the R1CS exactly when this proposition holds. -/
def settlementConstraints (w : SettlementWitness) : Prop :=
  w.tmobilePosition = tmoOutgoing w - tmoIncoming w + offsetF ∧
  w.vodafonePosition = vodOutgoing w - vodIncoming w + offsetF ∧
  w.orangePosition = orgOutgoing w - orgIncoming w + offsetF ∧
  w.telenorPosition = telOutgoing w - telIncoming w + offsetF ∧
  w.sfrPosition = sfrOutgoing w - sfrIncoming w + offsetF ∧
  sumPositions w = 50000000 ∧
  enforceRangeCheck w.tmobileToVodafone 50000000 ∧
  enforceRangeCheck w.tmobileToOrange 50000000 ∧
  enforceRangeCheck w.tmobileToTelenor 50000000 ∧
  enforceRangeCheck w.tmobileToSfr 50000000 ∧
  enforceRangeCheck w.netSettlementCount 10 ∧
  enforceRangeCheck w.totalNetAmount 500000000 ∧
  enforceRangeCheck w.savingsPercentage 100 ∧
  enforceRangeCheck (tmoOutgoing w + tmoIncoming w + vodOutgoing w
    + vodIncoming w + orgOutgoing w + orgIncoming w + telOutgoing w
    + telIncoming w + sfrOutgoing w + sfrIncoming w) 1000000000 ∧
  w.consortiumHash = 54321

/-- Claim C8: the settlement calculation circuit enforces, for each of the
five operators, that the offset-encoded net position equals total outgoing
minus total incoming plus the offset, and enforces that the five
offset-encoded positions sum to `5 × offset = 50 000 000`; a witness
violating any one of these equations does not satisfy the constraint
system.  (The conservation equation is in fact implied by the five
per-operator equations, since every bilateral amount appears once as
outgoing and once as incoming.) -/
theorem settlementConstraints_enforce (w : SettlementWitness) :
    (settlementConstraints w →
      (w.tmobilePosition = tmoOutgoing w - tmoIncoming w + offsetF ∧
       w.vodafonePosition = vodOutgoing w - vodIncoming w + offsetF ∧
       w.orangePosition = orgOutgoing w - orgIncoming w + offsetF ∧
       w.telenorPosition = telOutgoing w - telIncoming w + offsetF ∧
       w.sfrPosition = sfrOutgoing w - sfrIncoming w + offsetF ∧
       sumPositions w = 50000000)) ∧
    ((¬w.tmobilePosition = tmoOutgoing w - tmoIncoming w + offsetF ∨
      ¬w.vodafonePosition = vodOutgoing w - vodIncoming w + offsetF ∨
      ¬w.orangePosition = orgOutgoing w - orgIncoming w + offsetF ∨
      ¬w.telenorPosition = telOutgoing w - telIncoming w + offsetF ∨
      ¬w.sfrPosition = sfrOutgoing w - sfrIncoming w + offsetF ∨
      ¬sumPositions w = 50000000) → ¬settlementConstraints w) ∧
    ((w.tmobilePosition = tmoOutgoing w - tmoIncoming w + offsetF ∧
      w.vodafonePosition = vodOutgoing w - vodIncoming w + offsetF ∧
      w.orangePosition = orgOutgoing w - orgIncoming w + offsetF ∧
      w.telenorPosition = telOutgoing w - telIncoming w + offsetF ∧
      w.sfrPosition = sfrOutgoing w - sfrIncoming w + offsetF) →
      sumPositions w = 50000000) := by
  refine ⟨?_, ?_, ?_⟩
  · intro h
    obtain ⟨h1, h2, h3, h4, h5, h6, _⟩ := h
    exact ⟨h1, h2, h3, h4, h5, h6⟩
  · intro hviol h
    obtain ⟨h1, h2, h3, h4, h5, h6, _⟩ := h
    rcases hviol with hv | hv | hv | hv | hv | hv <;> exact hv (by assumption)
  · intro h
    obtain ⟨h1, h2, h3, h4, h5⟩ := h
    unfold sumPositions
    rw [h1, h2, h3, h4, h5]
    unfold tmoOutgoing tmoIncoming vodOutgoing vodIncoming orgOutgoing
      orgIncoming telOutgoing telIncoming sfrOutgoing sfrIncoming offsetF
    ring_nf

/-- The all-zero netting witness: every bilateral amount 0, every position
equal to the offset, consortium hash 54321. -/
def zeroNettingWitness : SettlementWitness :=
  { tmobileToVodafone := 0, tmobileToOrange := 0, tmobileToTelenor := 0,
    tmobileToSfr := 0, vodafoneToTmobile := 0, vodafoneToOrange := 0,
    vodafoneToTelenor := 0, vodafoneToSfr := 0, orangeToTmobile := 0,
    orangeToVodafone := 0, orangeToTelenor := 0, orangeToSfr := 0,
    telenorToTmobile := 0, telenorToVodafone := 0, telenorToOrange := 0,
    telenorToSfr := 0, sfrToTmobile := 0, sfrToVodafone := 0,
    sfrToOrange := 0, sfrToTelenor := 0, tmobilePosition := 10000000,
    vodafonePosition := 10000000, orangePosition := 10000000,
    telenorPosition := 10000000, sfrPosition := 10000000,
    netSettlementCount := 0, totalNetAmount := 0, periodHash := 0,
    savingsPercentage := 0, consortiumHash := 54321 }

/-- The same witness with T-Mobile's position corrupted to 0, violating its
net-position equation. -/
def badNettingWitness : SettlementWitness :=
  { zeroNettingWitness with tmobilePosition := 0 }

/-- Witness for C8 at concrete inputs: the zero netting witness satisfies
the constraints and hence the equations; corrupting one position makes the
witness violate its equation and be rejected. -/
theorem settlementConstraints_enforce_witness :
    settlementConstraints zeroNettingWitness ∧
    sumPositions zeroNettingWitness = 50000000 ∧
    ¬(badNettingWitness.tmobilePosition
      = tmoOutgoing badNettingWitness - tmoIncoming badNettingWitness
        + offsetF) ∧
    ¬settlementConstraints badNettingWitness := by
  have hsat : settlementConstraints zeroNettingWitness := by
    refine ⟨?_, ?_, ?_, ?_, ?_, ?_, trivial, trivial, trivial, trivial,
      trivial, trivial, trivial, trivial, ?_⟩ <;> decide
  have hbad : ¬(badNettingWitness.tmobilePosition
      = tmoOutgoing badNettingWitness - tmoIncoming badNettingWitness
        + offsetF) := by decide
  exact ⟨hsat,
    ((settlementConstraints_enforce zeroNettingWitness).1 hsat).2.2.2.2.2,
    hbad,
    (settlementConstraints_enforce badNettingWitness).2.1
      (Or.inl hbad)⟩

/-! ## Blake2b-256 (`src/hash.rs`, blake2_rfc with 32-byte output) -/

/-- Rotate a 64-bit word right by `n`. -/
def rotr64 (x n : Nat) : Nat := ((x >>> n) ||| (x <<< (64 - n))) % 2 ^ 64

/-- The Blake2b initialisation vector (RFC 7693). -/
def blakeIV : List Nat :=
  [0x6a09e667f3bcc908, 0xbb67ae8584caa73b, 0x3c6ef372fe94f82b,
   0xa54ff53a5f1d36f1, 0x510e527fade682d1, 0x9b05688c2b3e6c1f,
   0x1f83d9abfb41bd6b, 0x5be0cd19137e2179]

/-- The Blake2b message schedule permutations (RFC 7693). -/
def blakeSigma : List (List Nat) :=
  [[0, 1, 2, 3, 4, 5, 6, 7, 8, 9, 10, 11, 12, 13, 14, 15],
   [14, 10, 4, 8, 9, 15, 13, 6, 1, 12, 0, 2, 11, 7, 5, 3],
   [11, 8, 12, 0, 5, 2, 15, 13, 10, 14, 3, 6, 7, 1, 9, 4],
   [7, 9, 3, 1, 13, 12, 11, 14, 2, 6, 5, 10, 4, 0, 15, 8],
   [9, 0, 5, 7, 2, 4, 10, 15, 14, 1, 11, 12, 6, 8, 3, 13],
   [2, 12, 6, 10, 0, 11, 8, 3, 4, 13, 7, 5, 15, 14, 1, 9],
   [12, 5, 1, 15, 14, 13, 4, 10, 0, 7, 6, 3, 9, 2, 8, 11],
   [13, 11, 7, 14, 12, 1, 3, 9, 5, 0, 15, 4, 8, 6, 2, 10],
   [6, 15, 14, 9, 11, 3, 0, 8, 12, 2, 13, 7, 1, 4, 10, 5],
   [10, 2, 8, 4, 7, 6, 1, 5, 15, 11, 9, 14, 3, 12, 13, 0]]

/-- Word access with default 0. -/
def nthW (l : List Nat) (i : Nat) : Nat := l.getD i 0

/-- The Blake2b G mixing function on the 16-word work vector. -/
def gMix (v : List Nat) (a b c d x y : Nat) : List Nat :=
  let va := add64 (add64 (nthW v a) (nthW v b)) x
  let vd := rotr64 ((nthW v d) ^^^ va) 32
  let vc := add64 (nthW v c) vd
  let vb := rotr64 ((nthW v b) ^^^ vc) 24
  let va2 := add64 (add64 va vb) y
  let vd2 := rotr64 (vd ^^^ va2) 16
  let vc2 := add64 vc vd2
  let vb2 := rotr64 (vb ^^^ vc2) 63
  ((((v.set a va2).set b vb2).set c vc2).set d vd2)

/-- One Blake2b round with schedule row `s`. -/
def blakeRound (m v : List Nat) (s : List Nat) : List Nat :=
  let v1 := gMix v 0 4 8 12 (nthW m (nthW s 0)) (nthW m (nthW s 1))
  let v2 := gMix v1 1 5 9 13 (nthW m (nthW s 2)) (nthW m (nthW s 3))
  let v3 := gMix v2 2 6 10 14 (nthW m (nthW s 4)) (nthW m (nthW s 5))
  let v4 := gMix v3 3 7 11 15 (nthW m (nthW s 6)) (nthW m (nthW s 7))
  let v5 := gMix v4 0 5 10 15 (nthW m (nthW s 8)) (nthW m (nthW s 9))
  let v6 := gMix v5 1 6 11 12 (nthW m (nthW s 10)) (nthW m (nthW s 11))
  let v7 := gMix v6 2 7 8 13 (nthW m (nthW s 12)) (nthW m (nthW s 13))
  gMix v7 3 4 9 14 (nthW m (nthW s 14)) (nthW m (nthW s 15))

/-- The Blake2b compression function: 12 rounds over state `h`, message
block `m` (16 little-endian words), byte counter `t`, final flag `f`. -/
def blakeCompress (h m : List Nat) (t : Nat) (f : Bool) : List Nat :=
  let v0 := h ++ blakeIV
  let v1 := v0.set 12 ((nthW v0 12) ^^^ (t % 2 ^ 64))
  let v2 := v1.set 13 ((nthW v1 13) ^^^ (t / 2 ^ 64 % 2 ^ 64))
  let v3 := if f then v2.set 14 ((nthW v2 14) ^^^ (2 ^ 64 - 1)) else v2
  let vf := (List.range 12).foldl
    (fun v i => blakeRound m v (blakeSigma.getD (i % 10) [])) v3
  (List.range 8).map
    (fun i => (nthW h i) ^^^ (nthW vf i) ^^^ (nthW vf (i + 8)))

/-- Little-endian word from up to eight bytes. -/
def leWord (bs : List Nat) : Nat := bs.foldr (fun b acc => b + 256 * acc) 0

/-- Split a 128-byte block into 16 little-endian words. -/
def wordsOfBlock (blk : List Nat) : List Nat :=
  (List.range 16).map fun j => leWord ((blk.drop (8 * j)).take 8)

/-- The eight little-endian bytes of a 64-bit word. -/
def wordLEBytes (w : Nat) : List Nat :=
  (List.range 8).map fun i => (w >>> (8 * i)) % 256

/-- Unkeyed Blake2b with a 32-byte digest — `Blake2bHash::hash` in
`src/hash.rs` (`Blake2b::new(32)` of blake2_rfc).  The parameter word
`0x01010020` is fanout 1, depth 1, digest length 32. -/
def blake2b256 (data : List Nat) : List Nat :=
  let h0 := blakeIV.set 0 ((nthW blakeIV 0) ^^^ 0x01010020)
  let nBlocks := max 1 ((data.length + 127) / 128)
  let hf := (List.range nBlocks).foldl
    (fun h i =>
      let blk := (data.drop (128 * i)).take 128
      let isLast := i = nBlocks - 1
      let padded := blk ++ List.replicate (128 - blk.length) 0
      blakeCompress h (wordsOfBlock padded)
        (if isLast then data.length else 128 * (i + 1)) isLast)
    h0
  ((hf.map wordLEBytes).flatten).take 32

/-- Bytes of an ASCII string (UTF-8 agrees with the code points for every
string the witnesses use). -/
def strBytes (s : String) : List Nat := s.data.map Char.toNat

/-! ## Canonical block serialization and block proposal
(`SimpleBlockchain::create_settlement_block`, `serde_json::to_vec`) -/

/-- Lowercase hex digit. -/
def hexChar (n : Nat) : Char :=
  if n < 10 then Char.ofNat (48 + n) else Char.ofNat (87 + n)

/-- Lowercase hex encoding of a byte string (`hex::encode`), as used by the
serde serializer of `Blake2bHash` and by `finalize_settlement_block`. -/
def hexEncode (bytes : List Nat) : String :=
  String.mk ((bytes.map fun b => [hexChar (b / 16), hexChar (b % 16)]).flatten)

/-- Settlement block (`SettlementBlock` in `src/simple_blockchain.rs`).
`timestamp` holds the RFC 3339 string chrono's serde produces for the
`DateTime<Utc>` field — the embedding treats the timestamp by its
serialized form, which is all the block hash ever sees. -/
structure SettlementBlock where
  blockHash : HashBytes
  previousHash : HashBytes
  blockNumber : Nat
  timestamp : String
  settlementSummary : SettlementSummary
  recordCount : Nat
  recordIds : List String
deriving DecidableEq, Repr

/-- Opening brace of a JSON object. -/
def jsonLB : String := "\x7b"

/-- Closing brace of a JSON object. -/
def jsonRB : String := "\x7d"

/-- `serde_json` serialization of `SettlementSummary`: fields in
declaration order; the `HashMap<String, i64>` iterates in the association
list's order (the concrete blocks below use at most one operator key, where
every iteration order agrees).  Operator names are assumed to need no JSON
escaping, as the consortium's do. -/
def serializeSummary (s : SettlementSummary) : String :=
  jsonLB ++ "\"total_records\":" ++ toString s.totalRecords
    ++ ",\"total_amount_cents\":" ++ toString s.totalAmountCents
    ++ ",\"operator_balances\":" ++ jsonLB
    ++ String.intercalate ","
      (s.operatorBalances.map fun kv => "\"" ++ kv.1 ++ "\":" ++ toString kv.2)
    ++ jsonRB ++ jsonRB

/-- `serde_json::to_vec(&block)`: compact JSON with the struct's fields in
declaration order; `Blake2bHash` serializes as its lowercase hex string
(the custom `Serialize` in `src/hash.rs`), `DateTime<Utc>` as its RFC 3339
string. -/
def serializeBlock (b : SettlementBlock) : String :=
  jsonLB ++ "\"block_hash\":\"" ++ hexEncode b.blockHash
    ++ "\",\"previous_hash\":\"" ++ hexEncode b.previousHash
    ++ "\",\"block_number\":" ++ toString b.blockNumber
    ++ ",\"timestamp\":\"" ++ b.timestamp
    ++ "\",\"settlement_summary\":" ++ serializeSummary b.settlementSummary
    ++ ",\"record_count\":" ++ toString b.recordCount
    ++ ",\"record_ids\":["
    ++ String.intercalate "," (b.recordIds.map fun rid => "\"" ++ rid ++ "\"")
    ++ "]" ++ jsonRB

/-- `Blake2bHash::hash(b"placeholder")`, the value the `block_hash` field
holds while the body is serialized for hashing. -/
def placeholderHash : HashBytes := blake2b256 (strBytes "placeholder")

/-- `SimpleBlockchain::create_settlement_block`
(`src/simple_blockchain.rs:418-466`), record selection and hashing: drain
ALL pending records (no filtering), build the summary and the id list,
serialize the block with the placeholder hash in `block_hash`, and set
`block_hash` to the Blake2b hash of those bytes.  `previous_hash`, the
block number and the timestamp string arrive as parameters (read from
storage / the height counter / `Utc::now()` by the caller).  Returns
`none` on an empty snapshot (`NoPendingRecords`). -/
def createSettlementBlock (records : List BceRecord) (previousHash : HashBytes)
    (blockNumber : Nat) (timestampStr : String) : Option SettlementBlock :=
  if records.isEmpty then none
  else
    let blk : SettlementBlock :=
      { blockHash := placeholderHash
        previousHash := previousHash
        blockNumber := blockNumber
        timestamp := timestampStr
        settlementSummary := calculateSettlementSummary records
        recordCount := records.length
        recordIds := records.map BceRecord.recordId }
    some { blk with blockHash := blake2b256 (strBytes (serializeBlock blk)) }

/-- Timestamp string used by the concrete blocks below. -/
def rfc3339ts : String := "2024-01-01T00:00:00Z"

/-- The S1 record (`proof_verified = false`, as submission under disabled
ZKP leaves it): charge `10·15 + 100·5 + 5·10 = 700`. -/
def c1Record : BceRecord :=
  { recordId := "r1", imsi := "i1", homeOperator := "op-a",
    visitedOperator := "op-b", callMinutes := 10, dataMb := 100, smsCount := 5,
    callRateCents := 15, dataRateCents := 5, smsRateCents := 10,
    wholesaleChargeCents := 700, timestamp := 0 }

/-- The block `create_settlement_block` builds from a pool holding exactly
`c1Record` (previous hash zero, height 0, fixed timestamp); its hash was
obtained by evaluating the embedding and is verified by the theorems. -/
def c1Block : SettlementBlock :=
  { blockHash := [77, 231, 221, 108, 160, 144, 94, 6, 191, 240, 133, 223,
      250, 143, 113, 54, 81, 233, 208, 207, 67, 204, 152, 23, 146, 214, 193,
      222, 213, 226, 135, 49],
    previousHash := zeroHash, blockNumber := 0, timestamp := rfc3339ts,
    settlementSummary :=
      { totalRecords := 1, totalAmountCents := 700,
        operatorBalances := [("op-a", -700), ("op-b", 700)] },
    recordCount := 1, recordIds := ["r1"] }

set_option maxRecDepth 1000000

/-- Claim C1 (counterexample): a pending pool whose only record has
`proof_verified = false` yields a proposed block whose `record_ids`
contains that record's id — `create_settlement_block` drains the entire
pool with no `proof_verified` filter, so an unverified record is included
in a proposed block. -/
theorem createSettlementBlock_includes_unverified :
    createSettlementBlock [c1Record] zeroHash 0 rfc3339ts = some c1Block ∧
    c1Block.recordIds = ["r1"] ∧
    c1Record.proofVerified = false := by
  refine ⟨by decide, by decide, by decide⟩

/-- Claim C1 (amended): the proposed block's record set is the full
snapshot of the pending pool with no `proof_verified` filter —
`record_ids` lists every drained record's id (verified or not) and
`record_count` is the snapshot's size. -/
theorem createSettlementBlock_takes_all_pending (records : List BceRecord)
    (prev : HashBytes) (n : Nat) (ts : String) (b : SettlementBlock)
    (h : createSettlementBlock records prev n ts = some b) :
    b.recordIds = records.map BceRecord.recordId ∧
    b.recordCount = records.length := by
  simp only [createSettlementBlock] at h
  by_cases he : records.isEmpty
  · rw [if_pos he] at h
    exact absurd h (by simp)
  · rw [if_neg he] at h
    injection h with h2
    rw [← h2]
    exact ⟨rfl, rfl⟩

/-- Witness for the amended C1 at a concrete input: the single-record pool
above, whose record is unverified, fills `record_ids` with its id. -/
theorem createSettlementBlock_takes_all_pending_witness :
    createSettlementBlock [c1Record] zeroHash 0 rfc3339ts = some c1Block ∧
    c1Block.recordIds = [c1Record].map BceRecord.recordId ∧
    c1Block.recordCount = [c1Record].length := by
  have h : createSettlementBlock [c1Record] zeroHash 0 rfc3339ts
      = some c1Block := by decide
  exact ⟨h, (createSettlementBlock_takes_all_pending _ _ _ _ _ h).1,
    (createSettlementBlock_takes_all_pending _ _ _ _ _ h).2⟩

/-- Single-operator variant of the S1 record (home = visited), giving a
one-key balance map whose serialization is independent of `HashMap`
iteration order. -/
def c5Record : BceRecord :=
  { recordId := "r1", imsi := "i1", homeOperator := "op-a",
    visitedOperator := "op-a", callMinutes := 10, dataMb := 100, smsCount := 5,
    callRateCents := 15, dataRateCents := 5, smsRateCents := 10,
    wholesaleChargeCents := 700, timestamp := 0 }

/-- The block built from a pool holding exactly `c5Record`. -/
def c5Block : SettlementBlock :=
  { blockHash := [210, 86, 109, 185, 244, 118, 143, 60, 128, 217, 229, 240,
      234, 15, 125, 9, 36, 161, 147, 111, 53, 218, 34, 224, 66, 50, 10, 247,
      120, 154, 140, 53],
    previousHash := zeroHash, blockNumber := 0, timestamp := rfc3339ts,
    settlementSummary :=
      { totalRecords := 1, totalAmountCents := 700,
        operatorBalances := [("op-a", 0)] },
    recordCount := 1, recordIds := ["r1"] }

/-- Claim C5 (counterexample): for the concrete block built by the
pipeline, `block_hash` does NOT equal the Blake2b hash of the canonical
serialization with `block_hash` zeroed — the body is hashed with the
`Blake2b("placeholder")` value in the field, not the zero hash. -/
theorem createSettlementBlock_hash_not_zeroed :
    createSettlementBlock [c5Record] zeroHash 0 rfc3339ts = some c5Block ∧
    c5Block.blockHash ≠ blake2b256 (strBytes
      (serializeBlock { c5Block with blockHash := zeroHash })) := by
  refine ⟨by decide, by decide⟩

/-- Claim C5 (amended): for every block built by the pipeline,
`block_hash` equals the Blake2b hash of the canonical `serde_json`
serialization of the block with its `block_hash` field set to
`Blake2b("placeholder")` (the placeholder the source stores in the field
while hashing), not the zero hash. -/
theorem createSettlementBlock_hash_spec (records : List BceRecord)
    (prev : HashBytes) (n : Nat) (ts : String) (b : SettlementBlock)
    (h : createSettlementBlock records prev n ts = some b) :
    b.blockHash = blake2b256 (strBytes
      (serializeBlock { b with blockHash := placeholderHash })) := by
  simp only [createSettlementBlock] at h
  by_cases he : records.isEmpty
  · rw [if_pos he] at h
    exact absurd h (by simp)
  · rw [if_neg he] at h
    injection h with h2
    rw [← h2]

/-- Witness for the amended C5 at a concrete input. -/
theorem createSettlementBlock_hash_spec_witness :
    createSettlementBlock [c5Record] zeroHash 0 rfc3339ts = some c5Block ∧
    c5Block.blockHash = blake2b256 (strBytes
      (serializeBlock { c5Block with blockHash := placeholderHash })) := by
  have h : createSettlementBlock [c5Record] zeroHash 0 rfc3339ts
      = some c5Block := by decide
  exact ⟨h, createSettlementBlock_hash_spec _ _ _ _ _ h⟩

/-! ## Block finalization (`SimpleBlockchain::finalize_settlement_block`) -/

/-- The pipeline state the finalizer touches: the pending pool, the record
store, the proposed-block map, the height, and the stored blocks. -/
structure ChainState where
  pending : List (String × BceRecord)
  storage : List (String × BceRecord)
  proposedBlocks : List (HashBytes × SettlementBlock)
  currentBlockNumber : Nat
  storedBlocks : List SettlementBlock
deriving DecidableEq, Repr

/-- `RocksSettlementStore::store_bce_record`: upsert by record id. -/
def storeBceRecord (storage : List (String × BceRecord)) (r : BceRecord) :
    List (String × BceRecord) :=
  insertA storage r.recordId r

/-- `SimpleBlockchain::finalize_settlement_block`
(`src/simple_blockchain.rs:672-715`), with `now` the
`Utc::now().timestamp()` used for `settled_timestamp`: remove the proposed
block (error if absent); for each `record_id` of the block, IF it is still
in the pending pool, remove it, attempt `mark_settled` (whose error — the
record not being `InProgress` — is discarded with `let _ =`, leaving the
record unchanged), and persist the possibly-unchanged record; record ids
absent from the pending pool are skipped entirely; bump the height; run
the (no-op) contract and settlement validations; store the block. -/
def finalizeSettlementBlock (s : ChainState) (blockHash : HashBytes)
    (now : Nat) : Option ChainState :=
  match lookupA s.proposedBlocks blockHash with
  | none => none
  | some block =>
      let proposed2 := removeA s.proposedBlocks blockHash
      let hashStr := hexEncode blockHash
      let ps := block.recordIds.foldl
        (fun (acc : List (String × BceRecord) × List (String × BceRecord))
            rid =>
          match lookupA acc.1 rid with
          | none => acc
          | some r =>
              let pending2 := removeA acc.1 rid
              let r2 := match markSettled r hashStr now with
                        | .ok r' => r'
                        | .error _ => r
              (pending2, storeBceRecord acc.2 r2))
        (s.pending, s.storage)
      some { pending := ps.1, storage := ps.2, proposedBlocks := proposed2,
             currentBlockNumber := s.currentBlockNumber + 1,
             storedBlocks := s.storedBlocks ++ [block] }

/-- Hash of the proposed block in the C2 scenario. -/
def c2Hash : HashBytes := List.replicate 32 9

/-- A record as `submit_bce_record` persists it: `settlement_status =
Pending` (nothing in the pipeline ever calls `mark_in_settlement`, so no
record is ever `InProgress`). -/
def c2PendingRecord : BceRecord :=
  { recordId := "r1", imsi := "i1", homeOperator := "op-a",
    visitedOperator := "op-b", callMinutes := 10, dataMb := 0, smsCount := 0,
    callRateCents := 15, dataRateCents := 0, smsRateCents := 0,
    wholesaleChargeCents := 150, timestamp := 0 }

/-- A consensus-approved proposed block settling `r1`. -/
def c2Block : SettlementBlock :=
  { blockHash := c2Hash, previousHash := zeroHash, blockNumber := 0,
    timestamp := rfc3339ts,
    settlementSummary :=
      { totalRecords := 1, totalAmountCents := 150,
        operatorBalances := [("op-a", -150), ("op-b", 150)] },
    recordCount := 1, recordIds := ["r1"] }

/-- The pipeline state right after proposing `c2Block`: the pending pool
was drained by `create_settlement_block`, the record sits in the store
still `Pending`, the block awaits consensus. -/
def c2State : ChainState :=
  { pending := [], storage := [("r1", c2PendingRecord)],
    proposedBlocks := [(c2Hash, c2Block)], currentBlockNumber := 0,
    storedBlocks := [] }

/-- The same state with the record still in the pending pool, isolating
the second failure mode (`mark_settled` requires `InProgress`). -/
def c2StateInPool : ChainState :=
  { c2State with pending := [("r1", c2PendingRecord)] }

/-- Claim C2 (code bug, evaluated at the failing input):
`finalize_settlement_block` succeeds on the consensus-approved block, but
the stored record `r1` keeps `settlement_status = Pending` — it never
becomes `Settled` and `settled_in_block` is never set.  In the
post-propose state the id is skipped because the pool was drained at
propose time; even with the record still in the pool, `mark_settled`
fails (the record was never `InProgress`; `mark_in_settlement` has no
caller) and the error is discarded. -/
theorem finalizeSettlementBlock_leaves_pending :
    ((finalizeSettlementBlock c2State c2Hash 99).map
      fun s => lookupA s.storage "r1") = some (some c2PendingRecord) ∧
    ((finalizeSettlementBlock c2StateInPool c2Hash 99).map
      fun s => lookupA s.storage "r1") = some (some c2PendingRecord) ∧
    c2PendingRecord.settlementStatus = .pending ∧
    c2PendingRecord.settlementStatus ≠ .settled ∧
    c2PendingRecord.settledInBlock ≠ some (hexEncode c2Hash) ∧
    c2Block.recordIds = ["r1"] := by
  refine ⟨by decide, by decide, by decide, by decide, by decide, by decide⟩

end SPB
